import Mathlib

/-!
Verification of the rustygit commit-history aggregation and changelog engine.

The definitions below are a shallow embedding of the Rust sources:
`src/analyzer.rs` (per-author aggregation), `src/changelog.rs` (tag-range
changelog generation and Markdown rendering), `src/repo.rs` (tag
resolution), `src/utils.rs` (time formatting) and the inline duplicate in
`src/main.rs`.  The libgit2 back end (object store, revision walk, diff
engine) is external to the repository; it is modelled explicitly where a
claim depends on it, as noted on the individual definitions.

Conventions of the embedding:
- git object identifiers are `String`s (the code renders them with
  `oid.to_string()` and indexes into the result);
- a tree snapshot is the list of content lines it holds (`GitTree`);
- the diff engine is a function field of `Repo`; `none` models
  "the statistics computation cannot be produced" (`diff.stats()` erring);
- a `none` result of a rendering function models a Rust panic: the
  process aborts and no output is produced.
-/

/-- A tree snapshot, as the list of content lines it holds. -/
abbrev GitTree := List String

/-- Diff statistics, as produced by `git2::DiffStats` (`files_changed`,
`insertions`, `deletions`). -/
structure DiffStat where
  files_changed : Nat
  insertions : Nat
  deletions : Nat
deriving DecidableEq

/-- Per-author accumulator from `src/models.rs`. -/
structure AuthorStats where
  commits : Nat
  lines_added : Nat
  lines_deleted : Nat
deriving DecidableEq

/-- A commit record as the repository exposes it: identifier, author name
(`none` models a missing/invalid author name), commit time (seconds and
timezone offset minutes), message, ordered parent identifiers, and the
commit's tree. -/
structure Commit where
  id : String
  author : Option String
  timeSeconds : Int
  tzMinutes : Int
  message : String
  parents : List String
  tree : GitTree
deriving DecidableEq

/-- Changelog entry data from `src/models.rs` (`CommitInfo`). -/
structure CommitInfo where
  hash : String
  author : String
  date : String
  message : String
deriving DecidableEq

/-- Git object kinds relevant to `get_commit_from_tag`. -/
inductive ObjKind where
  | commit
  | tag
  | tree
  | blob
deriving DecidableEq

/-- A git object as seen through `revparse_single`: its id, kind, and — for
tag objects — the commit id that `peel(ObjectType::Commit)` yields
(`none` when peeling fails). -/
structure GitObj where
  id : String
  kind : ObjKind
  peelTarget : Option String
deriving DecidableEq

/-- The repository, as the embedding sees it: the loadable commit objects,
the `refs/tags/` namespace, and the black-box diff-statistics engine
(`diff_tree_to_tree` followed by `diff.stats()`; `none` models a failing
statistics computation). -/
structure Repo where
  commits : List Commit
  tags : List (String × GitObj)
  diffStats : Option GitTree → GitTree → Option DiffStat

/-- Embeds `repo.find_commit(oid)`: `none` when the identifier does not
yield a loadable commit object. -/
def findCommit (g : Repo) (oid : String) : Option Commit :=
  g.commits.find? (fun c => c.id = oid)

/-- Embeds `commit.author().name().unwrap_or("Unknown")`. -/
def authorName (c : Commit) : String :=
  c.author.getD "Unknown"

/-- Embeds `commit.parent(0).ok()` followed by `parent.tree()`: the tree of
the first parent, or `none` when the commit has no parent (or the parent
object cannot be loaded), in which case the analyzer diffs against the
empty tree (`diff_tree_to_tree(None, ...)`). -/
def parent0Tree (g : Repo) (c : Commit) : Option GitTree :=
  (c.parents.head?.bind (fun pid => findCommit g pid)).map Commit.tree

/-- Embeds the per-commit statistics computation of `analyze_repo`
(`src/analyzer.rs` lines 17-29): diff the first parent's tree (or the
empty tree) against the commit's tree; when the statistics computation
fails, `lines_added`/`lines_deleted` keep their zero initial values. -/
def commitContribution (g : Repo) (c : Commit) : Nat × Nat :=
  match g.diffStats (parent0Tree g c) c.tree with
  | some st => (st.insertions, st.deletions)
  | none => (0, 0)

/-- Embeds `author_stats.entry(author).or_insert(AuthorStats{0,0,0})`
followed by the three `+=` updates.  The association list records authors
in first-seen order. -/
def bump (m : List (String × AuthorStats)) (a : String) (add del : Nat) :
    List (String × AuthorStats) :=
  match m with
  | [] => [(a, ⟨1, add, del⟩)]
  | (b, s) :: rest =>
    if b = a then
      (b, ⟨s.commits + 1, s.lines_added + add, s.lines_deleted + del⟩) :: rest
    else
      (b, s) :: bump rest a add del

/-- One iteration of the `analyze_repo` traversal loop: an identifier that
does not load a commit is skipped, otherwise the commit's contribution is
attributed to its author. -/
def aggStep (g : Repo) (m : List (String × AuthorStats)) (oid : String) :
    List (String × AuthorStats) :=
  match findCommit g oid with
  | none => m
  | some c => bump m (authorName c) (commitContribution g c).1 (commitContribution g c).2

/-- Embeds the whole aggregation loop of `analyze_repo` over the identifier
sequence the revision walk yields. -/
def aggregate (g : Repo) (walk : List String) : List (String × AuthorStats) :=
  walk.foldl (aggStep g) []

/-- Embeds `total_contributions`: the sum of `lines_added + lines_deleted`
over all authors. -/
def totalContributions (rows : List (String × AuthorStats)) : Nat :=
  (rows.map (fun r => r.2.lines_added + r.2.lines_deleted)).sum

/-- Embeds the `contribution` computation of `analyze_repo`: the floating
point arithmetic is modelled exactly over `ℚ`. -/
def contributionPct (total : Nat) (s : AuthorStats) : ℚ :=
  if 0 < total then
    (((s.lines_added + s.lines_deleted : Nat) : ℚ) / (total : ℚ)) * 100
  else 0

/-- Models Rust's `format!` with a two-decimal specifier and a trailing
percent sign, over an exact rational value: the value is rounded to
hundredths (computed from the rational's numerator and denominator with
integer arithmetic), then rendered as integer part, point, two fraction
digits, percent sign. -/
def formatPct (q : ℚ) : String :=
  let n : Int := (2 * (q.num * 100) + (q.den : Int)).fdiv (2 * (q.den : Int))
  let ip := n / 100
  let fp := (n % 100).natAbs
  toString ip ++ "." ++ (if fp < 10 then "0" else "") ++ toString fp ++ "%"

/-- Embeds the insertion step of a stable sort under the comparator
`b.1.commits.cmp(&a.1.commits)` of `analyze_repo` (`stats_vec.sort_by`):
descending by commit count, an element inserted after every
earlier-positioned element of greater-or-equal count. -/
def insertRow (x : String × AuthorStats) :
    List (String × AuthorStats) → List (String × AuthorStats)
  | [] => [x]
  | y :: ys =>
    if y.2.commits ≤ x.2.commits then x :: y :: ys else y :: insertRow x ys

/-- Embeds `stats_vec.sort_by(|a, b| b.1.commits.cmp(&a.1.commits))`:
Rust's `sort_by` is a stable sort, modelled as a stable insertion sort. -/
def sortRows : List (String × AuthorStats) → List (String × AuthorStats)
  | [] => []
  | x :: xs => insertRow x (sortRows xs)

/-- Embeds the presentation rows of the table printed by `analyze_repo`,
restricted to the author column and the formatted percentage column; the
input is the author map in the order the hash map iterates it. -/
def tableRows (rows : List (String × AuthorStats)) : List (String × String) :=
  (sortRows rows).map
    (fun r => (r.1, formatPct (contributionPct (totalContributions rows) r.2)))

/-- The three changelog buckets. -/
inductive Bucket where
  | feature
  | fix
  | other
deriving DecidableEq

/-- Embeds Rust's `str::starts_with(&str)`: the pattern's characters are a
literal case-sensitive leading segment of the string. -/
def strStartsWith (s pat : String) : Bool :=
  pat.data.isPrefixOf s.data

/-- Embeds the bucket assignment of `format_changelog` in
`src/changelog.rs` (lines 114-123), the modularized variant the spec's
design notes call canonical: case-sensitive `starts_with` checks on the
commit message, first matching rule wins. -/
def classifyCommit (msg : String) : Bucket :=
  if strStartsWith msg "Merged PR" || strStartsWith msg "feature" || strStartsWith msg "task" then
    Bucket.feature
  else if strStartsWith msg "fix" || strStartsWith msg "bug" then
    Bucket.fix
  else
    Bucket.other

/-- Embeds the bucket assignment of the inline duplicate `format_changelog`
in `src/main.rs` (lines 284-293). -/
def classifyCommitMain (msg : String) : Bucket :=
  if strStartsWith msg "feat" || strStartsWith msg "feature" then
    Bucket.feature
  else if strStartsWith msg "fix" then
    Bucket.fix
  else
    Bucket.other

/-- Embeds `commit.message.lines().next().unwrap_or("")`: the characters
before the first line feed, a trailing carriage return dropped, the empty
string for an empty message. -/
def firstLine (s : String) : String :=
  let l := s.data.takeWhile (fun ch => decide (ch ≠ '\n'))
  String.mk (if l.getLast? = some '\r' then l.dropLast else l)

/-- Embeds `&commit.hash[..7]`: the first seven characters of the
identifier; `none` models the Rust panic (process abort) raised when the
string is shorter than seven bytes. -/
def shortIdOf (h : String) : Option String :=
  if 7 ≤ h.length then some (String.mk (h.data.take 7)) else none

/-- Embeds one rendered changelog bullet of `format_changelog`:
`- <title> (<short-id>)\n  _by <author> on <date>_\n`.  `none` models the
panic of the short-id slice. -/
def renderEntry (c : CommitInfo) : Option String :=
  (shortIdOf c.hash).map (fun sid =>
    "- " ++ firstLine c.message ++ " (" ++ sid ++ ")\n  _by "
      ++ c.author ++ " on " ++ c.date ++ "_\n")

/-- Renders a bucket's entries in order; `none` as soon as one entry
panics. -/
def renderEntries : List CommitInfo → Option String
  | [] => some ""
  | c :: cs =>
    match renderEntry c, renderEntries cs with
    | some s, some rest => some (s ++ rest)
    | _, _ => none

/-- Embeds `format_changelog` of `src/changelog.rs` (lines 96-165): header,
statistics section, then one section per non-empty bucket, features first,
fixes second, others last (the first two followed by a blank line).
`none` models a panic while rendering an entry. -/
def formatChangelog (title : String) (commits : List CommitInfo)
    (filesChanged insertions deletions : Nat) : Option String :=
  let header :=
    "# " ++ title ++ "\n\n## Statistics\n\n- Files changed: "
      ++ toString filesChanged
      ++ "\n- Lines added: " ++ toString insertions
      ++ "\n- Lines deleted: " ++ toString deletions
      ++ "\n- Total commits: " ++ toString commits.length ++ "\n\n"
  let features := commits.filter (fun c => classifyCommit c.message == Bucket.feature)
  let fixes := commits.filter (fun c => classifyCommit c.message == Bucket.fix)
  let others := commits.filter (fun c => classifyCommit c.message == Bucket.other)
  (renderEntries features).bind (fun fs =>
    (renderEntries fixes).bind (fun xs =>
      (renderEntries others).map (fun os =>
        header
          ++ (if features.isEmpty then "" else "## New Features\n\n" ++ fs ++ "\n")
          ++ (if fixes.isEmpty then "" else "## Bug Fixes\n\n" ++ xs ++ "\n")
          ++ (if others.isEmpty then "" else "## Other Changes\n\n" ++ os))))

/-- Embeds `format_time` of `src/utils.rs`: the local-offset-adjusted epoch
seconds rendered as a decimal string. -/
def formatTime (secs tz : Int) : String :=
  toString (secs + tz * 60)

/-- Embeds the `CommitInfo` construction inside `generate_changelog`. -/
def mkCommitInfo (oid : String) (c : Commit) : CommitInfo :=
  { hash := oid
    author := authorName c
    date := formatTime c.timeSeconds c.tzMinutes
    message := c.message }

/-- Embeds the commit-collection loop of `generate_changelog`: identifiers
that do not load a commit are skipped silently. -/
def collectCommits (g : Repo) (walk : List String) : List CommitInfo :=
  walk.filterMap (fun oid => (findCommit g oid).map (mkCommitInfo oid))

/-- Embeds `revparse_single(&format!("refs/tags/..", tag_name))` restricted
to the tag namespace the code queries. -/
def revparseTag (g : Repo) (name : String) : Option GitObj :=
  (g.tags.find? (fun p => p.1 = name)).map (fun p => p.2)

/-- Embeds `tag_exists` of `src/repo.rs`: true iff the reference resolves,
independent of the kind of object it names. -/
def tagExists (g : Repo) (name : String) : Bool :=
  (revparseTag g name).isSome

/-- Embeds `get_commit_from_tag` of `src/repo.rs`: an annotated tag is
peeled to its target commit, a lightweight tag (commit object) is used
directly, and any other object kind — or a tag that fails to peel —
yields `none`. -/
def getCommitFromTag (g : Repo) (name : String) : Option String :=
  match revparseTag g name with
  | some obj =>
    match obj.kind with
    | ObjKind.tag => obj.peelTarget
    | ObjKind.commit => some obj.id
    | _ => none
  | none => none

/-- Modelled from the spec: the libgit2 revision walk behind
`revwalk.push(..)` / `revwalk.hide(..)` is not part of this repository's
sources, so it is modelled as a fuelled depth-first traversal of the
commit graph that deduplicates by identifier, skips identifiers that do
not load a commit, and never emits a member of `hidden`. -/
def walkAux (g : Repo) (hidden : List String) :
    Nat → List String → List String → List String
  | 0, _, _ => []
  | _ + 1, _, [] => []
  | fuel + 1, visited, oid :: stack =>
    if oid ∈ visited then walkAux g hidden fuel visited stack
    else if oid ∈ hidden then walkAux g hidden fuel (oid :: visited) stack
    else
      match findCommit g oid with
      | none => walkAux g hidden fuel (oid :: visited) stack
      | some c => oid :: walkAux g hidden fuel (oid :: visited) (c.parents ++ stack)

/-- Fuel that bounds every traversal of the finite commit graph: one step
per initial stack element, per emitted commit and per pushed parent. -/
def walkFuel (g : Repo) : Nat :=
  (g.commits.map (fun c => c.parents.length)).sum + g.commits.length + 2

/-- Modelled from the spec: the set of commits reachable from `start`,
inclusive of `start` itself (the commits a `hide` suppresses, §4.2). -/
def reachableFrom (g : Repo) (start : String) : List String :=
  walkAux g [] (walkFuel g) [] [start]

/-- Modelled from the spec: `revwalk.push(toId); revwalk.hide(fromId)` —
the commits reachable from `toId` that are not reachable from
`fromId`. -/
def rangeWalk (g : Repo) (toId fromId : String) : List String :=
  walkAux g (reachableFrom g fromId) (walkFuel g) [] [toId]

/-- Embeds `generate_changelog` of `src/changelog.rs`: tag existence
checks, tag resolution, range traversal, the single tree-to-tree diff
between the two tag commits, and rendering.  `none` models an early error
return or a panic (`expect`); `some s` is the changelog text produced. -/
def generateChangelog (g : Repo) (fromTag toTag : String) : Option String :=
  if tagExists g fromTag = false then none
  else if tagExists g toTag = false then none
  else
    match getCommitFromTag g fromTag with
    | none => none
    | some fromId =>
      match getCommitFromTag g toTag with
      | none => none
      | some toId =>
        match findCommit g fromId, findCommit g toId with
        | some fc, some tc =>
          match g.diffStats (some fc.tree) tc.tree with
          | some st =>
            formatChangelog ("Changelog from " ++ fromTag ++ " to " ++ toTag)
              (collectCommits g (rangeWalk g toId fromId))
              st.files_changed st.insertions st.deletions
          | none => none
        | _, _ => none

/-- A concrete instance of the black-box diff engine, used by the witness
repositories: against the empty tree every line of the new tree is an
insertion; between two trees, a line counts as inserted when new and
deleted when dropped, and one file is reported changed when the trees
differ. -/
def simpleDiff (old : Option GitTree) (t : GitTree) : Option DiffStat :=
  match old with
  | none => some ⟨if t.isEmpty then 0 else 1, t.length, 0⟩
  | some o =>
    some ⟨if o = t then 0 else 1,
      (t.filter (fun l => decide (¬ l ∈ o))).length,
      (o.filter (fun l => decide (¬ l ∈ t))).length⟩

/-- Witness repository: a root commit by Alice. -/
def cRoot : Commit :=
  { id := "aaaaaaaa"
    author := some "Alice"
    timeSeconds := 100
    tzMinutes := 0
    message := "feat: init"
    parents := []
    tree := ["x", "y", "z"] }

/-- Witness repository: a child commit by Bob adding one line. -/
def cChild : Commit :=
  { id := "bbbbbbbb"
    author := some "Bob"
    timeSeconds := 200
    tzMinutes := 60
    message := "fix: bug"
    parents := ["aaaaaaaa"]
    tree := ["x", "y", "z", "w"] }

/-- Witness repository with two commits, two tags and the concrete diff
engine. -/
def gA : Repo :=
  { commits := [cRoot, cChild]
    tags :=
      [("v1", { id := "aaaaaaaa", kind := ObjKind.commit, peelTarget := none }),
       ("v2", { id := "bbbbbbbb", kind := ObjKind.commit, peelTarget := none })]
    diffStats := simpleDiff }

/-- The head-first identifier sequence the full-history walk of `gA`
yields. -/
def walkA : List String := ["bbbbbbbb", "aaaaaaaa"]

/-- Witness repository whose diff-statistics engine always fails. -/
def gFail : Repo :=
  { commits := [cRoot, cChild]
    tags := []
    diffStats := fun _ _ => none }

/-- Witness repository for tag resolution: an annotated tag, a lightweight
tag, a broken annotated tag, and a tag naming a tree object. -/
def gT : Repo :=
  { commits := [cRoot]
    tags :=
      [("ann", { id := "t1111111", kind := ObjKind.tag, peelTarget := some "aaaaaaaa" }),
       ("light", { id := "aaaaaaaa", kind := ObjKind.commit, peelTarget := none }),
       ("broken", { id := "t2222222", kind := ObjKind.tag, peelTarget := none }),
       ("treeish", { id := "t3333333", kind := ObjKind.tree, peelTarget := none })]
    diffStats := simpleDiff }

/-- Witness repository for the range walk: a diamond in which the `from`
commit is reachable from the `to` commit along two paths (directly as a
merge parent and through `a0000000`). -/
def gD : Repo :=
  { commits :=
      [{ id := "f0000000", author := some "Alice", timeSeconds := 0, tzMinutes := 0,
         message := "base", parents := [], tree := ["base"] },
       { id := "a0000000", author := some "Alice", timeSeconds := 1, tzMinutes := 0,
         message := "mid", parents := ["f0000000"], tree := ["base", "a"] },
       { id := "t0000000", author := some "Bob", timeSeconds := 2, tzMinutes := 0,
         message := "merge", parents := ["a0000000", "f0000000"], tree := ["base", "a", "t"] }]
    tags := []
    diffStats := simpleDiff }

/-- Witness changelog entry with a 40-character identifier. -/
def entryLong : CommitInfo :=
  { hash := "aaaaaaa1aaaaaaa1aaaaaaa1aaaaaaa1aaaaaaa1"
    author := "A"
    date := "0"
    message := "fix: y" }

/-- Witness changelog entry with a 2-character identifier. -/
def entryShort : CommitInfo :=
  { hash := "ab"
    author := "B"
    date := "1"
    message := "feature: z" }

/-- C1, counterexample: the claim's merged rule set holds in neither
implementation.  In the canonical `src/changelog.rs` classifier the
message "feat: x" — which the claim places in the Feature bucket — lands
in the Other bucket (the checked feature prefixes are "Merged PR",
"feature", "task" only); in the inline `src/main.rs` classifier the
messages "Merged PR 123: y" and "bug: z" land in the Other bucket even
though the claim assigns them to Feature and Fix respectively. -/
theorem c1_counterexample :
    classifyCommit "feat: x" = Bucket.other
    ∧ classifyCommitMain "Merged PR 123: y" = Bucket.other
    ∧ classifyCommitMain "bug: z" = Bucket.other := by
  decide

/-- C1, amended: in the canonical classifier of `src/changelog.rs`, every
commit message is assigned exactly one bucket by case-sensitive prefix
match with first-matching-rule-wins precedence — Feature for a message
starting with "Merged PR", "feature" or "task"; otherwise Fix for a
message starting with "fix" or "bug"; otherwise Other.  A message
"feat: x" therefore lands in the Other bucket, not the Feature bucket. -/
theorem c1_classify_precedence (msg : String) :
    (classifyCommit msg = Bucket.feature
      ↔ (strStartsWith msg "Merged PR" || strStartsWith msg "feature"
          || strStartsWith msg "task") = true)
    ∧ (classifyCommit msg = Bucket.fix
      ↔ (strStartsWith msg "Merged PR" || strStartsWith msg "feature"
          || strStartsWith msg "task") = false
        ∧ (strStartsWith msg "fix" || strStartsWith msg "bug") = true)
    ∧ (classifyCommit msg = Bucket.other
      ↔ (strStartsWith msg "Merged PR" || strStartsWith msg "feature"
          || strStartsWith msg "task") = false
        ∧ (strStartsWith msg "fix" || strStartsWith msg "bug") = false) := by
  unfold classifyCommit
  cases h1 : (strStartsWith msg "Merged PR" || strStartsWith msg "feature"
      || strStartsWith msg "task") <;>
    cases h2 : (strStartsWith msg "fix" || strStartsWith msg "bug") <;>
      simp [h1, h2]

/-- C1, witness: the amended precedence evaluated on concrete messages. -/
theorem c1_classify_precedence_witness :
    classifyCommit "task 42" = Bucket.feature
    ∧ classifyCommit "bugfix" = Bucket.fix
    ∧ classifyCommit "chore: z" = Bucket.other :=
  ⟨(c1_classify_precedence "task 42").1.mpr (by decide),
   (c1_classify_precedence "bugfix").2.1.mpr (by decide),
   (c1_classify_precedence "chore: z").2.2.mpr (by decide)⟩

/-- C7: tag-name resolution.  When the reference resolves to an object:
a tag object (annotated tag) is peeled, yielding its target commit when
peeling succeeds and no commit when it fails; a commit object
(lightweight tag) is used directly; a tree or blob object yields no
commit.  In each of those cases `tag_exists` is true, while a reference
that does not resolve has `tag_exists` false (and yields no commit),
distinguishing a tag that is unresolvable from one that does not
exist. -/
theorem c7_tag_resolution (g : Repo) (name : String) :
    (∀ obj, revparseTag g name = some obj →
      tagExists g name = true
      ∧ (obj.kind = ObjKind.tag → getCommitFromTag g name = obj.peelTarget)
      ∧ (obj.kind = ObjKind.commit → getCommitFromTag g name = some obj.id)
      ∧ (obj.kind = ObjKind.tree ∨ obj.kind = ObjKind.blob →
          getCommitFromTag g name = none))
    ∧ (revparseTag g name = none →
        tagExists g name = false ∧ getCommitFromTag g name = none) := by
  constructor
  · intro obj h
    refine ⟨by simp [tagExists, h], ?_, ?_, ?_⟩
    · intro hk; simp [getCommitFromTag, h, hk]
    · intro hk; simp [getCommitFromTag, h, hk]
    · intro hk
      rcases hk with hk | hk <;> simp [getCommitFromTag, h, hk]
  · intro h
    exact ⟨by simp [tagExists, h], by simp [getCommitFromTag, h]⟩

/-- C7, witness: the four tag shapes of the repository `gT` plus a
nonexistent tag name. -/
theorem c7_tag_resolution_witness :
    getCommitFromTag gT "ann" = some "aaaaaaaa"
    ∧ getCommitFromTag gT "light" = some "aaaaaaaa"
    ∧ (getCommitFromTag gT "broken" = none ∧ tagExists gT "broken" = true)
    ∧ (getCommitFromTag gT "treeish" = none ∧ tagExists gT "treeish" = true)
    ∧ (tagExists gT "ghost" = false ∧ getCommitFromTag gT "ghost" = none) :=
  ⟨((c7_tag_resolution gT "ann").1 _ rfl).2.1 rfl,
   ((c7_tag_resolution gT "light").1 _ rfl).2.2.1 rfl,
   ⟨((c7_tag_resolution gT "broken").1 _ rfl).2.1 rfl,
    ((c7_tag_resolution gT "broken").1 _ rfl).1⟩,
   ⟨((c7_tag_resolution gT "treeish").1 _ rfl).2.2.2 (Or.inl rfl),
    ((c7_tag_resolution gT "treeish").1 _ rfl).1⟩,
   (c7_tag_resolution gT "ghost").2 rfl⟩

/-- Helper: the two-decimal rendering of a zero percentage. -/
theorem formatPct_zero : formatPct 0 = "0.00%" := by decide

/-- C2: for every author in the aggregate of a full traversal, when the
total contribution sum is positive the contribution percentage is the
author's `lines_added + lines_deleted` divided by the sum of the same
over all authors, times 100; and when that total is zero, every rendered
percentage cell reads exactly "0.00%". -/
theorem c2_contribution_pct (g : Repo) (walk : List String) :
    (∀ a s, (a, s) ∈ aggregate g walk →
      0 < totalContributions (aggregate g walk) →
      contributionPct (totalContributions (aggregate g walk)) s
        = (((s.lines_added + s.lines_deleted : Nat) : ℚ)
            / ((totalContributions (aggregate g walk) : Nat) : ℚ)) * 100)
    ∧ (totalContributions (aggregate g walk) = 0 →
        ∀ r ∈ tableRows (aggregate g walk), r.2 = "0.00%") := by
  constructor
  · intro a s _ h
    simp [contributionPct, h]
  · intro h0 r hr
    obtain ⟨x, _, rfl⟩ := List.mem_map.mp hr
    show formatPct (contributionPct (totalContributions (aggregate g walk)) x.2) = "0.00%"
    rw [h0]
    simpa [contributionPct] using formatPct_zero

/-- C2, witness: in `gA` the total is 4 and Alice's percentage is the
stated quotient; in `gFail` (all diff statistics failing) the total is 0
and every rendered percentage cell is "0.00%". -/
theorem c2_contribution_pct_witness :
    contributionPct (totalContributions (aggregate gA walkA)) ⟨1, 3, 0⟩
      = ((((⟨1, 3, 0⟩ : AuthorStats).lines_added
          + (⟨1, 3, 0⟩ : AuthorStats).lines_deleted : Nat) : ℚ)
          / ((totalContributions (aggregate gA walkA) : Nat) : ℚ)) * 100
    ∧ ∀ r ∈ tableRows (aggregate gFail walkA), r.2 = "0.00%" :=
  ⟨(c2_contribution_pct gA walkA).1 "Alice" ⟨1, 3, 0⟩ (by decide) (by decide),
   (c2_contribution_pct gFail walkA).2 (by decide)⟩

/-- C3: under the documented behaviour of the diff engine on an empty old
tree (every line of the new tree an insertion, nothing deleted), the
per-commit statistics of the aggregation are computed against the first
parent's tree; a commit with no parent is diffed against the empty tree,
so a root commit whose tree holds K lines contributes `lines_added = K`
and `lines_deleted = 0` to its author; and the statistics depend only on
the first parent — commits agreeing on first parent and tree get equal
statistics, so the other parents of a merge are never used. -/
theorem c3_first_parent_diff (g : Repo)
    (hEmpty : ∀ t : GitTree, ∃ f, g.diffStats none t = some ⟨f, t.length, 0⟩) :
    (∀ c p, c.parents.head? = some p →
      commitContribution g c
        = match g.diffStats ((findCommit g p).map Commit.tree) c.tree with
          | some st => (st.insertions, st.deletions)
          | none => (0, 0))
    ∧ (∀ c : Commit, c.parents = [] → commitContribution g c = (c.tree.length, 0))
    ∧ (∀ c₁ c₂ : Commit, c₁.parents.head? = c₂.parents.head? → c₁.tree = c₂.tree →
        commitContribution g c₁ = commitContribution g c₂)
    ∧ (∀ c : Commit, c.parents = [] → findCommit g c.id = some c →
        aggregate g [c.id] = [(authorName c, ⟨1, c.tree.length, 0⟩)]) := by
  have key : ∀ c : Commit, c.parents = [] → commitContribution g c = (c.tree.length, 0) := by
    intro c hc
    have hp0 : parent0Tree g c = none := by simp [parent0Tree, hc]
    obtain ⟨f, hf⟩ := hEmpty c.tree
    simp [commitContribution, hp0, hf]
  refine ⟨?_, key, ?_, ?_⟩
  · intro c p hp
    have hpt : parent0Tree g c = (findCommit g p).map Commit.tree := by
      simp [parent0Tree, hp]
    unfold commitContribution
    rw [hpt]
  · intro c₁ c₂ hp ht
    have hpt : parent0Tree g c₁ = parent0Tree g c₂ := by
      simp [parent0Tree, hp]
    unfold commitContribution
    rw [hpt, ht]
  · intro c hc hfind
    simp [aggregate, aggStep, hfind, key c hc, bump]

/-- C3, witness: the concrete diff engine of `gA` satisfies the empty-tree
hypothesis, and the root commit `cRoot` (3 lines) contributes exactly
`(3, 0)`, recorded for its author Alice. -/
theorem c3_first_parent_diff_witness :
    (∀ t : GitTree, ∃ f, gA.diffStats none t = some ⟨f, t.length, 0⟩)
    ∧ commitContribution gA cRoot = (cRoot.tree.length, 0)
    ∧ aggregate gA ["aaaaaaaa"] = [(authorName cRoot, ⟨1, cRoot.tree.length, 0⟩)] := by
  have hE : ∀ t : GitTree, ∃ f, gA.diffStats none t = some ⟨f, t.length, 0⟩ :=
    fun t => ⟨if t.isEmpty then 0 else 1, rfl⟩
  exact ⟨hE, (c3_first_parent_diff gA hE).2.1 cRoot rfl,
    (c3_first_parent_diff gA hE).2.2.2 cRoot rfl (by decide)⟩

/-- C6: a commit whose diff-statistics computation fails contributes
zeroed statistics `(0, 0)` but is still counted for its author (`bump`
adds one commit and zero lines), and the traversal continues over the
remaining commits unaffected. -/
theorem c6_zeroed_stats (g : Repo) (pre post : List String) (oid : String) (c : Commit)
    (hc : findCommit g oid = some c)
    (hfail : g.diffStats (parent0Tree g c) c.tree = none) :
    commitContribution g c = (0, 0)
    ∧ aggregate g (pre ++ oid :: post)
      = List.foldl (aggStep g) (bump (aggregate g pre) (authorName c) 0 0) post := by
  have hzero : commitContribution g c = (0, 0) := by
    simp [commitContribution, hfail]
  refine ⟨hzero, ?_⟩
  simp [aggregate, List.foldl_append, aggStep, hc, hzero]

/-- C6, witness: in `gFail` every statistics computation fails; the root
commit is still counted for Alice with zero lines and the walk goes on to
the second commit. -/
theorem c6_zeroed_stats_witness :
    commitContribution gFail cRoot = (0, 0)
    ∧ aggregate gFail ["aaaaaaaa", "bbbbbbbb"]
      = List.foldl (aggStep gFail)
          (bump (aggregate gFail []) (authorName cRoot) 0 0) ["bbbbbbbb"] :=
  c6_zeroed_stats gFail [] ["bbbbbbbb"] "aaaaaaaa" cRoot (by decide) rfl

/-- C10: an identifier that does not load a commit object is silently
skipped by both traversals — it contributes no author statistics and no
changelog entry, and the rest of the walk is processed unchanged. -/
theorem c10_skip_unloadable (g : Repo) (pre post : List String) (oid : String)
    (h : findCommit g oid = none) :
    aggregate g (pre ++ oid :: post) = aggregate g (pre ++ post)
    ∧ collectCommits g (pre ++ oid :: post) = collectCommits g (pre ++ post) := by
  constructor
  · simp [aggregate, List.foldl_append, aggStep, h]
  · simp [collectCommits, h]

/-- C10, witness: `gA` has no commit "zzzzzzzz"; dropping it from the walk
changes neither the aggregate nor the collected changelog entries. -/
theorem c10_skip_unloadable_witness :
    aggregate gA ["bbbbbbbb", "zzzzzzzz", "aaaaaaaa"]
      = aggregate gA ["bbbbbbbb", "aaaaaaaa"]
    ∧ collectCommits gA ["bbbbbbbb", "zzzzzzzz", "aaaaaaaa"]
      = collectCommits gA ["bbbbbbbb", "aaaaaaaa"] :=
  c10_skip_unloadable gA ["bbbbbbbb"] ["aaaaaaaa"] "zzzzzzzz" (by decide)

/-- Helper: inserting into the sorted prefix permutes the element onto the
front. -/
theorem insertRow_perm (x : String × AuthorStats) (l : List (String × AuthorStats)) :
    (insertRow x l).Perm (x :: l) := by
  induction l with
  | nil => exact List.Perm.refl _
  | cons y ys ih =>
    by_cases h : y.2.commits ≤ x.2.commits
    · simp only [insertRow, if_pos h]
      exact List.Perm.refl _
    · simp only [insertRow, if_neg h]
      exact (ih.cons y).trans (List.Perm.swap x y ys)

/-- Helper: the insertion step preserves descending order by commit
count. -/
theorem insertRow_pairwise (x : String × AuthorStats) (l : List (String × AuthorStats))
    (h : l.Pairwise (fun a b => b.2.commits ≤ a.2.commits)) :
    (insertRow x l).Pairwise (fun a b => b.2.commits ≤ a.2.commits) := by
  induction l with
  | nil => simp [insertRow]
  | cons y ys ih =>
    rcases List.pairwise_cons.mp h with ⟨hy, hys⟩
    by_cases hc : y.2.commits ≤ x.2.commits
    · simp only [insertRow, if_pos hc]
      refine List.pairwise_cons.mpr ⟨?_, h⟩
      intro z hz
      rcases List.mem_cons.mp hz with rfl | hz
      · exact hc
      · exact le_trans (hy z hz) hc
    · simp only [insertRow, if_neg hc]
      refine List.pairwise_cons.mpr ⟨?_, ih hys⟩
      intro z hz
      rcases List.mem_cons.mp ((insertRow_perm x ys).mem_iff.mp hz) with rfl | hz
      · exact le_of_not_le hc
      · exact hy z hz

/-- Helper: the insertion step keeps every class of tied commit counts in
its original relative order. -/
theorem insertRow_filter (x : String × AuthorStats) (l : List (String × AuthorStats)) (k : Nat) :
    (insertRow x l).filter (fun r => r.2.commits == k)
      = if (x.2.commits == k) = true
        then x :: l.filter (fun r => r.2.commits == k)
        else l.filter (fun r => r.2.commits == k) := by
  induction l with
  | nil => by_cases hk : (x.2.commits == k) = true <;> simp [insertRow, hk]
  | cons y ys ih =>
    by_cases hc : y.2.commits ≤ x.2.commits
    · simp only [insertRow, if_pos hc]
      by_cases hk : (x.2.commits == k) = true <;> simp [List.filter_cons, hk]
    · simp only [insertRow, if_neg hc]
      by_cases hyk : (y.2.commits == k) = true
      · have hlt : x.2.commits < y.2.commits := Nat.lt_of_not_le hc
        have hyk' : y.2.commits = k := by simpa using hyk
        have hxk : (x.2.commits == k) = false := by
          simp only [beq_eq_false_iff_ne]
          omega
        simp [List.filter_cons, hyk, hxk, ih]
      · simp [List.filter_cons, hyk, ih]

/-- C4, counterexample: both authors of `gA` have one commit each; the
traversal first sees Alice, then Bob, so the first-seen map order is
`[Alice, Bob]`.  The code sorts whatever order the hash map iterates —
an unspecified permutation of the entries — and `[Bob, Alice]` is such a
permutation; the stable sort keeps the tied pair in that order, so Bob is
presented before Alice, contradicting the claimed first-seen tie
order. -/
theorem c4_counterexample :
    aggregate gA ["aaaaaaaa", "bbbbbbbb"]
      = [("Alice", ⟨1, 3, 0⟩), ("Bob", ⟨1, 1, 0⟩)]
    ∧ List.Perm [("Bob", (⟨1, 1, 0⟩ : AuthorStats)), ("Alice", ⟨1, 3, 0⟩)]
        (aggregate gA ["aaaaaaaa", "bbbbbbbb"])
    ∧ sortRows [("Bob", ⟨1, 1, 0⟩), ("Alice", ⟨1, 3, 0⟩)]
      = [("Bob", ⟨1, 1, 0⟩), ("Alice", ⟨1, 3, 0⟩)] := by
  refine ⟨by decide, ?_, by decide⟩
  have h : aggregate gA ["aaaaaaaa", "bbbbbbbb"]
      = [("Alice", ⟨1, 3, 0⟩), ("Bob", ⟨1, 1, 0⟩)] := by decide
  rw [h]
  exact List.Perm.swap _ _ _

/-- C4, amended: the presentation order is descending by commit count and
the sort is stable — but stable with respect to the order in which the
hash map iterates the author entries (an unspecified permutation of
first-seen order), not with respect to first-seen order itself: the
sorted output is a permutation of the iterated entries in which every
class of tied commit counts appears in the iterated order. -/
theorem c4_sort_stable (rows : List (String × AuthorStats)) :
    (sortRows rows).Pairwise (fun a b => b.2.commits ≤ a.2.commits)
    ∧ (sortRows rows).Perm rows
    ∧ ∀ k : Nat, (sortRows rows).filter (fun r => r.2.commits == k)
        = rows.filter (fun r => r.2.commits == k) := by
  refine ⟨?_, ?_, ?_⟩
  · induction rows with
    | nil => simp [sortRows]
    | cons x xs ih => exact insertRow_pairwise x (sortRows xs) ih
  · induction rows with
    | nil => exact List.Perm.refl _
    | cons x xs ih => exact (insertRow_perm x (sortRows xs)).trans (ih.cons x)
  · intro k
    induction rows with
    | nil => rfl
    | cons x xs ih =>
      show (insertRow x (sortRows xs)).filter (fun r => r.2.commits == k) = _
      rw [insertRow_filter, List.filter_cons]
      by_cases hk : (x.2.commits == k) = true <;> simp [hk, ih]

/-- Helper: the walk never emits a member of its hidden set, whatever the
fuel, visited set and stack. -/
theorem walkAux_not_hidden (g : Repo) (hidden : List String)
    (fuel : Nat) (visited stack : List String) (x : String)
    (hx : x ∈ walkAux g hidden fuel visited stack) : x ∉ hidden := by
  induction fuel generalizing visited stack with
  | zero => simp [walkAux] at hx
  | succ n ih =>
    cases stack with
    | nil => simp [walkAux] at hx
    | cons oid rest =>
      rw [walkAux] at hx
      by_cases h1 : oid ∈ visited
      · rw [if_pos h1] at hx
        exact ih _ _ hx
      · rw [if_neg h1] at hx
        by_cases h2 : oid ∈ hidden
        · rw [if_pos h2] at hx
          exact ih _ _ hx
        · rw [if_neg h2] at hx
          cases hfc : findCommit g oid with
          | none =>
            rw [hfc] at hx
            exact ih _ _ hx
          | some c =>
            rw [hfc] at hx
            rcases List.mem_cons.mp hx with rfl | hx'
            · exact h2
            · exact ih _ _ hx'

/-- Helper: a start identifier that loads a commit is a member of its own
reachable set. -/
theorem mem_reachableFrom_self (g : Repo) (s : String)
    (h : (findCommit g s).isSome) : s ∈ reachableFrom g s := by
  obtain ⟨c, hc⟩ := Option.isSome_iff_exists.mp h
  obtain ⟨m, hm⟩ : ∃ m, walkFuel g = m + 1 :=
    ⟨(g.commits.map (fun c => c.parents.length)).sum + g.commits.length + 1, rfl⟩
  unfold reachableFrom
  rw [hm, walkAux]
  simp [hc]

/-- C5 (spec-modelled revision walk): the range traversal starting at
`toId` with `fromId` excluded never yields a commit reachable from
`fromId` — in particular never `fromId` itself — even when such a commit
is also reachable from `toId` through another path. -/
theorem c5_range_excludes (g : Repo) (toId fromId : String) :
    (∀ c, c ∈ rangeWalk g toId fromId → c ∉ reachableFrom g fromId)
    ∧ ((findCommit g fromId).isSome → fromId ∉ rangeWalk g toId fromId) := by
  constructor
  · intro c hc
    exact walkAux_not_hidden g (reachableFrom g fromId) _ _ _ c hc
  · intro h hmem
    exact walkAux_not_hidden g (reachableFrom g fromId) _ _ _ fromId hmem
      (mem_reachableFrom_self g fromId h)

/-- C5, witness: in the diamond repository `gD` the `from` commit is
reachable from the `to` commit both as a direct merge parent and through
the middle commit; the range walk still yields the two non-excluded
commits and never the `from` commit. -/
theorem c5_range_excludes_witness :
    "t0000000" ∈ rangeWalk gD "t0000000" "f0000000"
    ∧ "t0000000" ∉ reachableFrom gD "f0000000"
    ∧ "f0000000" ∉ rangeWalk gD "t0000000" "f0000000" :=
  ⟨by decide,
   (c5_range_excludes gD "t0000000" "f0000000").1 "t0000000" (by decide),
   (c5_range_excludes gD "t0000000" "f0000000").2 (by decide)⟩

/-- Helper: an entry with a long-enough identifier renders with the first
seven characters as the short id. -/
theorem renderEntry_eq (c : CommitInfo) (h : 7 ≤ c.hash.length) :
    renderEntry c
      = some ("- " ++ firstLine c.message ++ " (" ++ String.mk (c.hash.data.take 7)
          ++ ")\n  _by " ++ c.author ++ " on " ++ c.date ++ "_\n") := by
  simp [renderEntry, shortIdOf, h]

/-- Helper: an entry with an identifier shorter than seven characters
panics. -/
theorem renderEntry_none (c : CommitInfo) (h : c.hash.length < 7) :
    renderEntry c = none := by
  simp [renderEntry, shortIdOf, Nat.not_le_of_lt h]

/-- Helper: a bucket whose entries all carry long-enough identifiers
renders. -/
theorem renderEntries_isSome (l : List CommitInfo)
    (h : ∀ c ∈ l, 7 ≤ c.hash.length) : (renderEntries l).isSome = true := by
  induction l with
  | nil => rfl
  | cons c cs ih =>
    have hc : 7 ≤ c.hash.length := h c (List.mem_cons_self c cs)
    have hcs := ih (fun d hd => h d (List.mem_cons_of_mem c hd))
    obtain ⟨s, hs⟩ := Option.isSome_iff_exists.mp hcs
    rw [renderEntries, renderEntry_eq c hc, hs]
    rfl

/-- Helper: a bucket holding an entry with a short identifier fails to
render (the panic aborts the whole rendering). -/
theorem renderEntries_none (l : List CommitInfo) (c : CommitInfo)
    (hc : c ∈ l) (hshort : c.hash.length < 7) : renderEntries l = none := by
  induction l with
  | nil => cases hc
  | cons d ds ih =>
    rw [renderEntries]
    rcases List.mem_cons.mp hc with rfl | hmem
    · rw [renderEntry_none c hshort]
    · rw [ih hmem]
      cases renderEntry d <;> rfl

/-- Helper: the whole changelog renders when every commit's identifier has
at least seven characters. -/
theorem formatChangelog_isSome (title : String) (cs : List CommitInfo)
    (f i d : Nat) (h : ∀ c ∈ cs, 7 ≤ c.hash.length) :
    (formatChangelog title cs f i d).isSome = true := by
  simp only [formatChangelog]
  obtain ⟨fs, hfs⟩ := Option.isSome_iff_exists.mp
    (renderEntries_isSome _ (fun c hc => h c (List.mem_filter.mp hc).1))
  obtain ⟨xs, hxs⟩ := Option.isSome_iff_exists.mp
    (renderEntries_isSome _ (fun c hc => h c (List.mem_filter.mp hc).1))
  obtain ⟨os, hos⟩ := Option.isSome_iff_exists.mp
    (renderEntries_isSome _ (fun c hc => h c (List.mem_filter.mp hc).1))
  rw [hfs, hxs, hos]
  rfl

/-- Helper: one short identifier anywhere in the commit list aborts the
rendering. -/
theorem formatChangelog_none (title : String) (cs : List CommitInfo)
    (f i d : Nat) (c : CommitInfo) (hc : c ∈ cs) (hshort : c.hash.length < 7) :
    formatChangelog title cs f i d = none := by
  simp only [formatChangelog]
  rcases hb : classifyCommit c.message with _ | _ | _
  · rw [renderEntries_none _ c (List.mem_filter.mpr ⟨hc, by simp [hb]⟩) hshort]
    rfl
  · rw [renderEntries_none
      (cs.filter (fun c => classifyCommit c.message == Bucket.fix)) c
      (List.mem_filter.mpr ⟨hc, by simp [hb]⟩) hshort]
    cases renderEntries (cs.filter (fun c => classifyCommit c.message == Bucket.feature)) <;> rfl
  · rw [renderEntries_none
      (cs.filter (fun c => classifyCommit c.message == Bucket.other)) c
      (List.mem_filter.mpr ⟨hc, by simp [hb]⟩) hshort]
    cases renderEntries (cs.filter (fun c => classifyCommit c.message == Bucket.feature)) <;>
      cases renderEntries (cs.filter (fun c => classifyCommit c.message == Bucket.fix)) <;> rfl

/-- C9, counterexample: a changelog entry whose commit identifier has
fewer than seven characters makes the rendering panic — the process
aborts (modelled by `none`) instead of failing or truncating gracefully
as the claim states. -/
theorem c9_counterexample :
    formatChangelog "t"
      [{ hash := "abc", author := "A", date := "0", message := "fix: y" }] 0 0 0 = none
    ∧ shortIdOf "abc" = none := by
  decide

/-- C9, amended: rendering takes the first seven characters of the commit
identifier as the short id whenever the identifier has at least seven
characters, and the whole changelog renders in that case; but an
identifier shorter than seven characters makes the rendering panic
(process abort), not truncate gracefully.  In the program the identifiers
are 40-character hex digests, so the panic is unreachable there. -/
theorem c9_short_id (title : String) (cs : List CommitInfo) (f i d : Nat) :
    ((∀ c ∈ cs, 7 ≤ c.hash.length) → (formatChangelog title cs f i d).isSome = true)
    ∧ (∀ c : CommitInfo, 7 ≤ c.hash.length →
        renderEntry c
          = some ("- " ++ firstLine c.message ++ " (" ++ String.mk (c.hash.data.take 7)
              ++ ")\n  _by " ++ c.author ++ " on " ++ c.date ++ "_\n"))
    ∧ ((∃ c ∈ cs, c.hash.length < 7) → formatChangelog title cs f i d = none) := by
  refine ⟨fun h => formatChangelog_isSome title cs f i d h,
    fun c h => renderEntry_eq c h, ?_⟩
  rintro ⟨c, hc, hshort⟩
  exact formatChangelog_none title cs f i d c hc hshort

/-- C9, witness: the amended rendering behaviour on concrete entries, one
with a 40-character identifier and one with a 2-character identifier. -/
theorem c9_short_id_witness :
    (formatChangelog "t" [entryLong] 1 2 3).isSome = true
    ∧ renderEntry entryLong = some "- fix: y (aaaaaaa)\n  _by A on 0_\n"
    ∧ formatChangelog "t" [entryShort] 0 0 0 = none := by
  refine ⟨(c9_short_id "t" [entryLong] 1 2 3).1 (by decide), ?_, ?_⟩
  · have h := (c9_short_id "t" [] 0 0 0).2.1 entryLong (by decide)
    rw [h]
    decide
  · exact (c9_short_id "t" [entryShort] 0 0 0).2.2 ⟨entryShort, by decide, by decide⟩

/-- Helper: rendering an empty commit list yields the header and the
statistics section only — no category sections. -/
theorem formatChangelog_nil (title : String) (f i d : Nat) :
    formatChangelog title [] f i d
      = some ("# " ++ title ++ "\n\n## Statistics\n\n- Files changed: " ++ toString f
          ++ "\n- Lines added: " ++ toString i ++ "\n- Lines deleted: " ++ toString d
          ++ "\n- Total commits: " ++ toString (0 : Nat) ++ "\n\n") := by
  simp only [formatChangelog]
  simp [renderEntries, String.append_empty]

/-- C8, counterexample: in `gA`, asking for the changelog from tag `v2`
back to tag `v1` makes the range walk empty (every commit reachable from
`v1` is also reachable from `v2`), yet the rendered Statistics section
reports the tree-to-tree diff between the two tag commits — one file
changed and one line deleted, not all-zero counts as the claim states. -/
theorem c8_counterexample :
    rangeWalk gA "aaaaaaaa" "bbbbbbbb" = []
    ∧ generateChangelog gA "v2" "v1"
      = some ("# Changelog from v2 to v1\n\n## Statistics\n\n- Files changed: 1"
          ++ "\n- Lines added: 0\n- Lines deleted: 1\n- Total commits: 0\n\n") := by
  constructor
  · decide
  · decide

/-- C8, amended: when the range walk yields zero commits (and both tags
resolve and render), the changelog holds the header and a Statistics
section whose total-commits count is zero and holds none of the three
category sections; its files-changed, lines-added and lines-deleted
counts are those of the tree-to-tree diff between the two tag commits,
which are zero only when that diff is empty (for example when the two
tags name the same commit), not for every empty range. -/
theorem c8_empty_range_render (g : Repo) (ft tt fid tid : String)
    (fc tc : Commit) (st : DiffStat)
    (hfe : tagExists g ft = true) (hte : tagExists g tt = true)
    (hfr : getCommitFromTag g ft = some fid) (htr : getCommitFromTag g tt = some tid)
    (hfc : findCommit g fid = some fc) (htc : findCommit g tid = some tc)
    (hst : g.diffStats (some fc.tree) tc.tree = some st)
    (hwalk : rangeWalk g tid fid = []) :
    generateChangelog g ft tt
      = some ("# " ++ ("Changelog from " ++ ft ++ " to " ++ tt)
          ++ "\n\n## Statistics\n\n- Files changed: " ++ toString st.files_changed
          ++ "\n- Lines added: " ++ toString st.insertions
          ++ "\n- Lines deleted: " ++ toString st.deletions
          ++ "\n- Total commits: " ++ toString (0 : Nat) ++ "\n\n") := by
  simp only [generateChangelog, hfe, hte, hfr, htr, hfc, htc, hst, hwalk]
  simp only [Bool.true_eq_false, if_false, collectCommits, List.filterMap_nil]
  exact formatChangelog_nil ("Changelog from " ++ ft ++ " to " ++ tt)
    st.files_changed st.insertions st.deletions

/-- C8, witness: a range from `v1` to itself — the walk is empty, the two
tag trees are identical, and the rendered statistics are all zero with no
category sections. -/
theorem c8_empty_range_render_witness :
    generateChangelog gA "v1" "v1"
      = some ("# " ++ ("Changelog from " ++ "v1" ++ " to " ++ "v1")
          ++ "\n\n## Statistics\n\n- Files changed: " ++ toString (0 : Nat)
          ++ "\n- Lines added: " ++ toString (0 : Nat)
          ++ "\n- Lines deleted: " ++ toString (0 : Nat)
          ++ "\n- Total commits: " ++ toString (0 : Nat) ++ "\n\n") :=
  c8_empty_range_render gA "v1" "v1" "aaaaaaaa" "aaaaaaaa" cRoot cRoot ⟨0, 0, 0⟩
    (by decide) (by decide) (by decide) (by decide) (by decide) (by decide)
    (by decide) (by decide)
